import Mathlib

/-!
Verification of the filesystems panel state of broot
(`src/filesystems/filesystems_state.rs`).

The Rust code is shallowly embedded: mounts become plain structures, the
`Pattern` capability becomes a record of scoring functions, the state
mutation of each handler becomes a pure function from state to
state × command result, and panicking operations (`unwrap`, out-of-bounds
indexing) become `Option` results.
-/

namespace Broot

/-- A disk descriptor; only its type label is consumed by this panel
(`disk.disk_type()` in the source). -/
structure Disk where
  disk_type : String
deriving DecidableEq

/-- The subset of `lfs_core` mount statistics consumed by this panel. -/
structure MountStats where
  size : Nat
  used : Nat
  available : Nat
deriving DecidableEq

/-- The `info` part of an `lfs_core::Mount`: stable identity `id`, device
`dev`, fs name, fs type and mount point (paths are modelled as strings,
`to_string_lossy` is the identity). -/
structure MountInfo where
  id : Nat
  dev : Nat
  fs : String
  fs_type : String
  mount_point : String
deriving DecidableEq

/-- An `lfs_core::Mount` as consumed by the panel. -/
structure Mount where
  info : MountInfo
  disk : Option Disk
  stats : Option MountStats
deriving DecidableEq

/-- The Pattern capability: `score_of_string` returns `some score` when the
text matches the pattern, `none` otherwise. -/
structure Pattern where
  score_of_string : String → Option Nat

/-- `FilteredContent`: the filter overlay (pattern, ordered filtered
subsequence, selection index into it). -/
structure FilteredContent where
  pattern : Pattern
  mounts : List Mount
  selection_idx : Nat

/-- `FilesystemState` without its opaque pass-through `tree_options`
(that field is never read by the operations verified here). The
`NonEmptyVec` of the source is a `List` whose nonemptiness is part of the
state invariant. -/
structure FilesystemState where
  mounts : List Mount
  selection_idx : Nat
  scroll : Nat
  page_height : Nat
  filtered : Option FilteredContent

/-- The command results produced by the handlers verified here. -/
inductive AppStateCmdResult
  | Keep
  | PopState
  | PopStateAndReapply
deriving DecidableEq

/-- The error type of `FilesystemState::new`: an `Lfs` error with a
message, or a propagated I/O error (opaque payload). -/
inductive ProgramError
  | Lfs (details : String)
  | Io (code : Nat)
deriving DecidableEq

/-- The hard-coded `show_only_disks` flag of `FilesystemState::new`. -/
def show_only_disks : Bool := false

/-- `FilesystemState::new`. The two external effects are passed as
arguments: `loadResult` is the outcome of `MOUNTS.lock().load()` and
`metadataDev` the outcome of `fs::metadata(path).dev()`. -/
def new (loadResult : Except ProgramError (List Mount))
    (metadataDev : Except ProgramError Nat) :
    Except ProgramError FilesystemState :=
  match loadResult with
  | .error e => .error e
  | .ok loaded =>
    let mounts := loaded.filter fun mount =>
      if show_only_disks then mount.disk.isSome else mount.stats.isSome
    if mounts.isEmpty then
      .error (ProgramError.Lfs "no disk in lfs-core list")
    else
      match metadataDev with
      | .error e => .error e
      | .ok device_id =>
        .ok { mounts := mounts,
              selection_idx :=
                (mounts.findIdx? fun m => m.info.dev == device_id).getD 0,
              scroll := 0, page_height := 0, filtered := none }

/-- `FilesystemState::count`: overlay length if filtering, else master
length. -/
def count (s : FilesystemState) : Nat :=
  match s.filtered with
  | some f => f.mounts.length
  | none => s.mounts.length

/-- Modelled from the spec: `ScrollCommand` and its `apply` method live in
the command module, which is not among the provided sources. Section 4.1 of
the spec says a scroll request moves by lines or by pages and the result is
clamped to the interval from 0 to max 0 (count − page_height). -/
inductive ScrollCommand
  | Lines (n : Int)
  | Pages (n : Int)

/-- Modelled from the spec: clamped application of a scroll delta. -/
def ScrollCommand.apply (cmd : ScrollCommand)
    (scroll cnt page_height : Nat) : Nat :=
  let delta : Int :=
    match cmd with
    | .Lines n => n
    | .Pages n => n * page_height
  min ((scroll : Int) + delta).toNat (cnt - page_height)

/-- `FilesystemState::try_scroll`: updates `scroll` and reports whether it
changed. -/
def try_scroll (s : FilesystemState) (cmd : ScrollCommand) :
    FilesystemState × Bool :=
  let new_scroll := cmd.apply s.scroll (count s) s.page_height
  ({ s with scroll := new_scroll }, decide (new_scroll ≠ s.scroll))

/-- `selected_path`: the mount point of `self.mounts[self.selection_idx]`
(always the master row; the panicking index is modelled as `Option`). -/
def selected_path (s : FilesystemState) : Option String :=
  (s.mounts[s.selection_idx]?).map fun m => m.info.mount_point

/-- The keep test of `on_pattern`: a mount is skipped iff all four scores
are `none`, so it is kept iff at least one is `some`. -/
def keep (p : Pattern) (m : Mount) : Bool :=
  (p.score_of_string m.info.fs).isSome ||
  (m.disk.bind fun d => p.score_of_string d.disk_type).isSome ||
  (p.score_of_string m.info.fs_type).isSome ||
  (p.score_of_string m.info.mount_point).isSome

/-- The scan loop of `on_pattern`: walks the master sequence with its
index, appends kept mounts to `acc`, and records `acc.length` as the new
overlay selection whenever a kept mount's original index is at most the
master selection. -/
def on_pattern_scan (p : Pattern) (master_sel : Nat) :
    Nat → List Mount → List Mount → Nat → List Mount × Nat
  | _, [], acc, sel => (acc, sel)
  | idx, m :: rest, acc, sel =>
    if keep p m then
      on_pattern_scan p master_sel (idx + 1) rest (acc ++ [m])
        (if idx ≤ master_sel then acc.length else sel)
    else
      on_pattern_scan p master_sel (idx + 1) rest acc sel

/-- `on_pattern`: an empty pattern (modelled as `none`) destroys the
overlay; a non-empty pattern rebuilds it from the scan. Always `Keep`. -/
def on_pattern (s : FilesystemState) (pat : Option Pattern) :
    FilesystemState × AppStateCmdResult :=
  match pat with
  | none => ({ s with filtered := none }, .Keep)
  | some p =>
    let scanned := on_pattern_scan p s.selection_idx 0 s.mounts [] 0
    ({ s with filtered := some { pattern := p, mounts := scanned.1,
                                 selection_idx := scanned.2 } }, .Keep)

/-- `Internal::back`: take the overlay; if it is non-empty, look up the
master position of the mount with the overlay-selected mount's id (the
source `unwrap`s this, modelled as `none` = panic), stay with `Keep`;
without an overlay, request `PopState`. -/
def on_back (s : FilesystemState) :
    Option (FilesystemState × AppStateCmdResult) :=
  match s.filtered with
  | some f =>
    if f.mounts.isEmpty then
      some ({ s with filtered := none }, .Keep)
    else
      match f.mounts[f.selection_idx]? with
      | none => none
      | some selMount =>
        match s.mounts.findIdx? fun m => m.info.id == selMount.info.id with
        | none => none
        | some i => some ({ s with filtered := none, selection_idx := i }, .Keep)
  | none => some (s, .PopState)

/-- `Internal::line_down`: increment the active view's selection when not
at the last row. -/
def on_line_down (s : FilesystemState) :
    FilesystemState × AppStateCmdResult :=
  match s.filtered with
  | some f =>
    if f.selection_idx + 1 < f.mounts.length then
      ({ s with filtered := some { f with selection_idx := f.selection_idx + 1 } },
       .Keep)
    else
      ({ s with filtered := some f }, .Keep)
  | none =>
    if s.selection_idx + 1 < count s then
      ({ s with selection_idx := s.selection_idx + 1 }, .Keep)
    else
      (s, .Keep)

/-- `Internal::line_up`: decrement the active view's selection when not at
the first row. -/
def on_line_up (s : FilesystemState) :
    FilesystemState × AppStateCmdResult :=
  match s.filtered with
  | some f =>
    if f.selection_idx > 0 then
      ({ s with filtered := some { f with selection_idx := f.selection_idx - 1 } },
       .Keep)
    else
      ({ s with filtered := some f }, .Keep)
  | none =>
    if s.selection_idx > 0 then
      ({ s with selection_idx := s.selection_idx - 1 }, .Keep)
    else
      (s, .Keep)

/-- `on_click`: below the two header rows, the clicked row is
`y − 2 + scroll`; set the master selection when in bounds. Always `Keep`. -/
def on_click (s : FilesystemState) (_x y : Nat) :
    FilesystemState × AppStateCmdResult :=
  if y ≥ 2 then
    let row := y - 2 + s.scroll
    if row < s.mounts.length then
      ({ s with selection_idx := row }, .Keep)
    else
      (s, .Keep)
  else
    (s, .Keep)

/-- The column flags computed by the width-budget scan of `display`
(lines 221-256 of the source), together with the final usage-bar width. -/
structure ColFlags where
  e_dsk : Bool
  e_type : Bool
  e_use_bar : Bool
  e_use_share : Bool
  e_use : Bool
  w_use_bar : Nat
deriving DecidableEq

/-- One step of the width-budget scan of `display`: when the column was
just enabled, it claims `cost` characters from the remaining budget,
otherwise the budget is unchanged. -/
def col_step (enabled : Bool) (cost rem : Nat) : Nat :=
  if enabled then rem - cost else rem

/-- The column-enablement part of `display`, as a function of the
available width and of the content-determined column widths `wc_fs`
(fs-name column, selection mark included), `w_type` and `w_mount_point`.
Each sequential `if cond { rem -= k; e = true }` of the source becomes a
flag binding (the condition's value) followed by a `col_step` on the
remaining budget. -/
def layout (width wc_fs w_type w_mount_point : Nat) : ColFlags :=
  let w_dsk := 3
  let w_size := 4
  let w_use := 4
  let w_use_share := 4
  let w_free := 4
  let w_mandatory := wc_fs + 1 + w_size + 1 + w_free + 1 + w_mount_point
  if w_mandatory + 1 < width then
    let rem0 := width - w_mandatory - 1
    let e_use := decide (rem0 > w_use)
    let rem1 := col_step e_use (w_use + 1) rem0
    let e_use_share := e_use && decide (rem1 > w_use_share)
    let rem2 := col_step e_use_share w_use_share rem1
    let e_dsk := decide (rem2 > w_dsk)
    let rem3 := col_step e_dsk (w_dsk + 1) rem2
    let e_use_bar := e_use && decide (rem3 > 1)
    let rem4 := col_step e_use_bar 2 rem3
    let e_type := decide (rem4 > w_type)
    let rem5 := col_step e_type (w_type + 1) rem4
    let w_use_bar := if e_use_bar && decide (rem5 > 0) then 1 + min rem5 9 else 1
    { e_dsk := e_dsk, e_type := e_type, e_use_bar := e_use_bar,
      e_use_share := e_use_share, e_use := e_use, w_use_bar := w_use_bar }
  else
    { e_dsk := false, e_type := false, e_use_bar := false,
      e_use_share := false, e_use := false, w_use_bar := 1 }

/-- The state mutation performed by `display` (line 179 of the source):
it records the render area's height as `page_height`. -/
def display_page_height (s : FilesystemState) (height : Nat) :
    FilesystemState :=
  { s with page_height := height }

/-- One state-mutating operation of the panel. -/
inductive Step : FilesystemState → FilesystemState → Prop
  | pattern (s : FilesystemState) (p : Option Pattern) :
      Step s (on_pattern s p).1
  | back (s s₂ : FilesystemState) (r : AppStateCmdResult) :
      on_back s = some (s₂, r) → Step s s₂
  | line_down (s : FilesystemState) : Step s (on_line_down s).1
  | line_up (s : FilesystemState) : Step s (on_line_up s).1
  | scroll (s : FilesystemState) (c : ScrollCommand) :
      Step s (try_scroll s c).1
  | click (s : FilesystemState) (x y : Nat) : Step s (on_click s x y).1
  | render (s : FilesystemState) (h : Nat) : Step s (display_page_height s h)

/-- A state is reachable when it is produced by `new` or by applying the
panel's operations to a reachable state. -/
inductive Reachable : FilesystemState → Prop
  | base (lr : Except ProgramError (List Mount))
      (md : Except ProgramError Nat) (s : FilesystemState) :
      new lr md = Except.ok s → Reachable s
  | step (s s₂ : FilesystemState) : Reachable s → Step s s₂ → Reachable s₂

/-- The overlay invariant: every overlay mount is a clone of a master
mount, and the overlay selection is in bounds when the overlay is
non-empty. -/
def Inv (s : FilesystemState) : Prop :=
  ∀ f, s.filtered = some f →
    (∀ m ∈ f.mounts, m ∈ s.mounts) ∧
    (f.mounts ≠ [] → f.selection_idx < f.mounts.length)

/-- An example mount on device 10, mounted at the root. -/
def mountA : Mount :=
  { info := { id := 1, dev := 10, fs := "devsda1", fs_type := "ext4",
              mount_point := "/" },
    disk := some { disk_type := "SSD" },
    stats := some { size := 100, used := 40, available := 60 } }

/-- An example mount on device 20, mounted at /data. -/
def mountB : Mount :=
  { info := { id := 2, dev := 20, fs := "devsdb1", fs_type := "xfs",
              mount_point := "/data" },
    disk := some { disk_type := "HDD" },
    stats := some { size := 200, used := 150, available := 50 } }

/-- An example mount without usable stats (excluded by `new`). -/
def mountNoStats : Mount :=
  { info := { id := 3, dev := 30, fs := "procfs", fs_type := "proc",
              mount_point := "/proc" },
    disk := none,
    stats := none }

/-- A pattern that scores every string. -/
def patAll : Pattern := { score_of_string := fun _ => some 1 }

/-- A pattern that scores exactly the string "xfs". -/
def patXfs : Pattern :=
  { score_of_string := fun t => if t = "xfs" then some 1 else none }

/-- The state produced by `new` from `[mountA, mountB]` with initial device
10. -/
def exState0 : FilesystemState :=
  { mounts := [mountA, mountB], selection_idx := 0, scroll := 0,
    page_height := 0, filtered := none }

/-- An overlay holding only `mountB`, as the filter "xfs" would build. -/
def exOverlayB : FilteredContent :=
  { pattern := patXfs, mounts := [mountB], selection_idx := 0 }

/-- A state filtering with `exOverlayB` while the master selection is 0. -/
def exStateC1 : FilesystemState :=
  { mounts := [mountA, mountB], selection_idx := 0, scroll := 0,
    page_height := 5, filtered := some exOverlayB }

/-- A state filtering with `exOverlayB` while the master selection is 1. -/
def exStateC6 : FilesystemState :=
  { mounts := [mountA, mountB], selection_idx := 1, scroll := 0,
    page_height := 5, filtered := some exOverlayB }

/-- A state whose overlay's filtered subsequence is empty. -/
def exStateEmptyOverlay : FilesystemState :=
  { mounts := [mountA, mountB], selection_idx := 1, scroll := 0,
    page_height := 5,
    filtered := some { pattern := patXfs, mounts := [], selection_idx := 0 } }

/-- C1 (counterexample): in `exStateC1` the overlay is active and its
selected mount is at "/data", yet `selected_path` returns "/", the master
row's mount point; so `selected_path` does not return the overlay's
selected mount while a filter overlay is active. -/
theorem c1_selected_path_cex :
    exStateC1.filtered = some exOverlayB ∧
    (exOverlayB.mounts[exOverlayB.selection_idx]?).map
      (fun m => m.info.mount_point) = some "/data" ∧
    selected_path exStateC1 = some "/" ∧
    ("/" : String) ≠ "/data" :=
  ⟨rfl, rfl, rfl, by decide⟩

/-- C1 (amended): `selected_path()` returns the mount point of the master
list's selected row whether or not a filter overlay is active; the overlay
is never consulted. -/
theorem c1_selected_path_master_only (s : FilesystemState)
    (f : Option FilteredContent) :
    selected_path { s with filtered := f } = selected_path s ∧
    selected_path s =
      (s.mounts[s.selection_idx]?).map (fun m => m.info.mount_point) :=
  ⟨rfl, rfl⟩

/-- C7: a click at (x, y) selects master row `scroll + (y − 2)` exactly
when y is in the data band and the row is within the master list, leaves
the state unchanged otherwise, and always answers `Keep`; the overlay is
irrelevant. -/
theorem c7_on_click (s : FilesystemState) (x y : Nat) :
    on_click s x y =
      (if 2 ≤ y ∧ s.scroll + (y - 2) < s.mounts.length then
         { s with selection_idx := s.scroll + (y - 2) }
       else s,
       AppStateCmdResult.Keep) := by
  unfold on_click
  rcases Nat.lt_or_ge y 2 with h2 | h2
  · rw [if_neg (by omega), if_neg (by omega)]
  · rw [if_pos h2]
    by_cases hrow : y - 2 + s.scroll < s.mounts.length
    · rw [if_pos hrow, if_pos ⟨h2, by omega⟩, Nat.add_comm]
    · rw [if_neg hrow, if_neg (by omega)]

/-- C10: when the active overlay's filtered subsequence is empty, `back`
discards the overlay, leaves the master selection untouched, and answers
`Keep`. -/
theorem c10_back_empty_overlay (s : FilesystemState) (f : FilteredContent)
    (hf : s.filtered = some f) (he : f.mounts = []) :
    on_back s =
      some ({ s with filtered := none }, AppStateCmdResult.Keep) := by
  unfold on_back
  rw [hf]
  simp [he]

/-- Witness for `c10_back_empty_overlay` at `exStateEmptyOverlay`. -/
theorem c10_back_empty_overlay_witness :
    on_back exStateEmptyOverlay =
      some ({ exStateEmptyOverlay with filtered := none },
        AppStateCmdResult.Keep) :=
  c10_back_empty_overlay exStateEmptyOverlay _ rfl rfl

/-- C4: with an active overlay whose selected mount exists, `back`
discards the overlay, moves the master selection to the master index of
the mount with the same id, and answers `Keep`; without an overlay `back`
answers `PopState`. -/
theorem c4_back (s : FilesystemState) :
    (∀ f m i, s.filtered = some f →
      f.mounts[f.selection_idx]? = some m →
      (s.mounts.findIdx? fun x => x.info.id == m.info.id) = some i →
      on_back s =
        some ({ s with filtered := none, selection_idx := i },
          AppStateCmdResult.Keep)) ∧
    (s.filtered = none →
      on_back s = some (s, AppStateCmdResult.PopState)) := by
  constructor
  · intro f m i hf hm hi
    unfold on_back
    rw [hf]
    have hne : f.mounts.isEmpty = false := by
      cases hl : f.mounts with
      | nil => rw [hl] at hm; simp at hm
      | cons a l => simp [hl]
    simp only [hne, Bool.false_eq_true, if_false, hm, hi]
  · intro hf
    unfold on_back
    rw [hf]

/-- Witness for `c4_back`: both branches at concrete states. -/
theorem c4_back_witness :
    on_back exStateC1 =
      some ({ exStateC1 with filtered := none, selection_idx := 1 },
        AppStateCmdResult.Keep) ∧
    on_back exState0 = some (exState0, AppStateCmdResult.PopState) :=
  ⟨(c4_back exStateC1).1 exOverlayB mountB 1 rfl rfl rfl,
   (c4_back exState0).2 rfl⟩

/-- C6 (counterexample): in `exStateC6` a filter overlay is active and the
master selection is 1, yet a click on the first data row — an operation
other than `back` — sets the master selection to 0. -/
theorem c6_click_mutates_master_cex :
    exStateC6.filtered.isSome = true ∧
    exStateC6.selection_idx = 1 ∧
    (on_click exStateC6 0 2).1.selection_idx = 0 ∧
    (0 : Nat) ≠ 1 :=
  ⟨rfl, rfl, rfl, by decide⟩

/-- C6 (amended): while a filter overlay is active, every modelled
operation except `back` and `on_click` leaves the master `selection_idx`
unchanged: keyboard navigation, pattern edits, scrolling (hence page
up/down) and rendering all keep it. -/
theorem c6_filtering_preserves_master_selection (s : FilesystemState)
    (hf : s.filtered.isSome = true) :
    (on_line_down s).1.selection_idx = s.selection_idx ∧
    (on_line_up s).1.selection_idx = s.selection_idx ∧
    (∀ p, (on_pattern s p).1.selection_idx = s.selection_idx) ∧
    (∀ c, (try_scroll s c).1.selection_idx = s.selection_idx) ∧
    (∀ h, (display_page_height s h).selection_idx = s.selection_idx) := by
  obtain ⟨f, hfe⟩ := Option.isSome_iff_exists.mp hf
  refine ⟨?_, ?_, ?_, fun c => rfl, fun h => rfl⟩
  · simp only [on_line_down, hfe]
    split <;> rfl
  · simp only [on_line_up, hfe]
    split <;> rfl
  · intro p
    cases p <;> rfl

/-- Witness for `c6_filtering_preserves_master_selection` at
`exStateC6`. -/
theorem c6_filtering_preserves_master_selection_witness :
    (on_line_down exStateC6).1.selection_idx = 1 ∧
    (on_line_up exStateC6).1.selection_idx = 1 :=
  ⟨((c6_filtering_preserves_master_selection exStateC6 rfl).1).trans rfl,
   ((c6_filtering_preserves_master_selection exStateC6 rfl).2.1).trans rfl⟩

theorem on_pattern_scan_fst (p : Pattern) (ms : Nat) :
    ∀ (l : List Mount) (idx : Nat) (acc : List Mount) (sel : Nat),
      (on_pattern_scan p ms idx l acc sel).1 = acc ++ l.filter (keep p) := by
  intro l
  induction l with
  | nil => intro idx acc sel; simp [on_pattern_scan]
  | cons m rest ih =>
    intro idx acc sel
    by_cases hk : keep p m
    · simp [on_pattern_scan, hk, ih, List.filter_cons]
    · simp [on_pattern_scan, hk, ih, List.filter_cons]

theorem on_pattern_scan_snd_high (p : Pattern) (ms : Nat) :
    ∀ (l : List Mount) (idx : Nat) (acc : List Mount) (sel : Nat),
      ms < idx → (on_pattern_scan p ms idx l acc sel).2 = sel := by
  intro l
  induction l with
  | nil => intro idx acc sel _; simp [on_pattern_scan]
  | cons m rest ih =>
    intro idx acc sel hlt
    by_cases hk : keep p m
    · rw [on_pattern_scan, if_pos hk, if_neg (by omega)]
      exact ih _ _ _ (by omega)
    · rw [on_pattern_scan, if_neg hk]
      exact ih _ _ _ (by omega)

theorem on_pattern_scan_snd (p : Pattern) (ms : Nat) :
    ∀ (l : List Mount) (idx : Nat) (acc : List Mount) (sel : Nat),
      idx ≤ ms →
      (on_pattern_scan p ms idx l acc sel).2 =
        (if ((l.take (ms + 1 - idx)).filter (keep p)).length = 0 then sel
         else acc.length + ((l.take (ms + 1 - idx)).filter (keep p)).length - 1) := by
  intro l
  induction l with
  | nil => intro idx acc sel _; simp [on_pattern_scan]
  | cons m rest ih =>
    intro idx acc sel hle
    have htake : (m :: rest).take (ms + 1 - idx) = m :: rest.take (ms - idx) := by
      have : ms + 1 - idx = (ms - idx) + 1 := by omega
      rw [this, List.take_succ_cons]
    rw [htake]
    by_cases hk : keep p m
    · rw [on_pattern_scan, if_pos hk, if_pos hle]
      rcases Nat.lt_or_ge idx ms with hlt | hge
      · rw [ih _ _ _ (by omega)]
        have harg : ms + 1 - (idx + 1) = ms - idx := by omega
        rw [harg, List.filter_cons, if_pos hk]
        simp only [List.length_cons, List.length_append, List.length_nil]
        by_cases ht : (List.filter (keep p) (List.take (ms - idx) rest)).length = 0
        · rw [if_pos ht, if_neg (by omega)]; omega
        · rw [if_neg ht, if_neg (by omega)]; omega
      · have hidx : idx = ms := by omega
        rw [on_pattern_scan_snd_high p ms rest (idx + 1) _ _ (by omega)]
        have hz : ms - idx = 0 := by omega
        rw [hz]
        simp [List.filter_cons, hk]
    · rw [on_pattern_scan, if_neg hk]
      rcases Nat.lt_or_ge idx ms with hlt | hge
      · rw [ih _ _ _ (by omega)]
        have harg : ms + 1 - (idx + 1) = ms - idx := by omega
        rw [harg, List.filter_cons, if_neg hk]
      · have hidx : idx = ms := by omega
        rw [on_pattern_scan_snd_high p ms rest (idx + 1) _ _ (by omega)]
        have hz : ms - idx = 0 := by omega
        rw [hz]
        simp [List.filter_cons, hk]

/-- C3: a non-empty pattern edit sets the overlay selection to the
filtered position of the last match whose original index is at most the
master selection — that is, to c − 1 where c counts the kept mounts among
the first `selection_idx + 1` master entries — and to 0 when c = 0
(in particular when there is no match at all). -/
theorem c3_on_pattern_selection (s : FilesystemState) (p : Pattern) :
    ((on_pattern s (some p)).1.filtered.map FilteredContent.selection_idx) =
      some (if ((s.mounts.take (s.selection_idx + 1)).filter (keep p)).length = 0
            then 0
            else ((s.mounts.take (s.selection_idx + 1)).filter (keep p)).length - 1) := by
  unfold on_pattern
  have h := on_pattern_scan_snd p s.selection_idx s.mounts 0 [] 0 (Nat.zero_le _)
  simp only [Nat.sub_zero, List.length_nil, Nat.zero_add] at h
  simp only [h]
  rfl

/-- C5: a mount is kept by a non-empty pattern edit iff at least one of
its fs name, disk type label (when a disk is present), fs_type label or
mount-point text scores positively (`keep`), the filtered subsequence is
exactly the master filter, and it preserves the master's relative order
(sublist). -/
theorem c5_on_pattern_inclusion (s : FilesystemState) (p : Pattern) :
    ((on_pattern s (some p)).1.filtered.map FilteredContent.mounts) =
      some (s.mounts.filter (keep p)) ∧
    (∀ m : Mount, m ∈ s.mounts.filter (keep p) ↔
      m ∈ s.mounts ∧ keep p m = true) ∧
    List.Sublist (s.mounts.filter (keep p)) s.mounts := by
  refine ⟨?_, fun m => List.mem_filter, List.filter_sublist _⟩
  unfold on_pattern
  simp only [on_pattern_scan_fst, List.nil_append, Option.map]

theorem layout_e_use_eq (w a t b : Nat) :
    (layout w a t b).e_use = decide (a + b + 16 < w) := by
  simp only [layout]
  split
  · rename_i h
    simp only [decide_eq_decide]
    omega
  · rename_i h
    symm
    rw [decide_eq_false_iff_not]
    omega

theorem layout_e_use_share_eq (w a t b : Nat) :
    (layout w a t b).e_use_share = decide (a + b + 21 < w) := by
  simp only [layout]
  split
  · rename_i h
    by_cases hu : 4 < w - (a + 1 + 4 + 1 + 4 + 1 + b) - 1
    · rw [decide_eq_true hu]
      simp only [Bool.true_and, col_step, if_pos rfl, if_true, ite_true]
      simp only [decide_eq_decide]
      omega
    · rw [decide_eq_false hu]
      simp only [Bool.false_and]
      symm
      rw [decide_eq_false_iff_not]
      omega
  · rename_i h
    symm
    rw [decide_eq_false_iff_not]
    omega

theorem col_step_true (c r : Nat) : col_step true c r = r - c := rfl

theorem col_step_false (c r : Nat) : col_step false c r = r := rfl

theorem layout_e_type_eq (w a t b : Nat) (ht : 4 ≤ t) :
    (layout w a t b).e_type = decide (a + b + t + 27 < w) := by
  simp only [layout]
  split
  · rename_i h
    generalize hr : w - (a + 1 + 4 + 1 + 4 + 1 + b) - 1 = r
    replace hr : r + (a + b + 12) = w := by omega
    by_cases h1 : r > 4
    · simp only [decide_eq_true h1, Bool.true_and, col_step_true]
      by_cases h2 : r - (4 + 1) > 4
      · simp only [decide_eq_true h2, Bool.true_and, col_step_true]
        by_cases h3 : r - (4 + 1) - 4 > 3
        · simp only [decide_eq_true h3, Bool.true_and, col_step_true]
          by_cases h4 : r - (4 + 1) - 4 - (3 + 1) > 1
          · simp only [decide_eq_true h4, col_step_true]
            rw [decide_eq_decide]
            omega
          · simp only [decide_eq_false h4, col_step_false]
            rw [decide_eq_decide]
            omega
        · simp only [decide_eq_false h3, Bool.true_and, col_step_false]
          by_cases h4 : r - (4 + 1) - 4 > 1
          · simp only [decide_eq_true h4, col_step_true]
            rw [decide_eq_decide]
            omega
          · simp only [decide_eq_false h4, col_step_false]
            rw [decide_eq_decide]
            omega
      · simp only [decide_eq_false h2, Bool.true_and, col_step_false]
        by_cases h3 : r - (4 + 1) > 3
        · simp only [decide_eq_true h3, Bool.true_and, col_step_true]
          by_cases h4 : r - (4 + 1) - (3 + 1) > 1
          · simp only [decide_eq_true h4, col_step_true]
            rw [decide_eq_decide]
            omega
          · simp only [decide_eq_false h4, col_step_false]
            rw [decide_eq_decide]
            omega
        · simp only [decide_eq_false h3, Bool.true_and, col_step_false]
          by_cases h4 : r - (4 + 1) > 1
          · simp only [decide_eq_true h4, col_step_true]
            rw [decide_eq_decide]
            omega
          · simp only [decide_eq_false h4, col_step_false]
            rw [decide_eq_decide]
            omega
    · simp only [decide_eq_false h1, Bool.false_and, col_step_false]
      by_cases h3 : r > 3
      · simp only [decide_eq_true h3, col_step_true, col_step_false]
        rw [decide_eq_decide]
        omega
      · simp only [decide_eq_false h3, col_step_false]
        rw [decide_eq_decide]
        omega
  · rename_i h
    symm
    rw [decide_eq_false_iff_not]
    omega

/-- C2 (counterexample): with the minimal content widths (wc_fs = 10,
w_type = 4, w_mount_point = 11), the disk-type column is enabled at
width 37 but disabled at the larger width 38, and the usage-bar column is
enabled at width 45 but disabled at the larger width 46 — enabling an
earlier column consumes the budget the later column had — so column
enablement is not monotonic in the available width. -/
theorem c2_layout_not_monotonic_cex :
    (37 < 38 ∧
     (layout 37 10 4 11).e_dsk = true ∧
     (layout 38 10 4 11).e_dsk = false) ∧
    (45 < 46 ∧
     (layout 45 10 4 11).e_use_bar = true ∧
     (layout 46 10 4 11).e_use_bar = false) := by
  refine ⟨⟨by decide, by decide, by decide⟩, ⟨by decide, by decide, by decide⟩⟩

/-- C2 (amended): for fixed content widths, the usage-used and usage-share
columns are monotonic in the available width, and so is the fs-type column
for every type-column width of at least 4 — which the source guarantees,
since `w_type` is floored by the length of the "type" header. The
disk-type and usage-bar columns are not monotonic: enabling an earlier
column at a larger width can shrink the remaining budget below what they
had at a smaller width. -/
theorem c2_layout_mono_use_columns (a t b w1 w2 : Nat) (h : w1 < w2) :
    ((layout w1 a t b).e_use = true → (layout w2 a t b).e_use = true) ∧
    ((layout w1 a t b).e_use_share = true →
      (layout w2 a t b).e_use_share = true) ∧
    (4 ≤ t → (layout w1 a t b).e_type = true →
      (layout w2 a t b).e_type = true) := by
  refine ⟨?_, ?_, ?_⟩
  · rw [layout_e_use_eq, layout_e_use_eq]
    simp only [decide_eq_true_eq]
    omega
  · rw [layout_e_use_share_eq, layout_e_use_share_eq]
    simp only [decide_eq_true_eq]
    omega
  · intro ht
    rw [layout_e_type_eq w1 a t b ht, layout_e_type_eq w2 a t b ht]
    simp only [decide_eq_true_eq]
    omega

/-- Witness for `c2_layout_mono_use_columns` at widths 45 < 60 and
53 < 60. -/
theorem c2_layout_mono_use_columns_witness :
    (layout 60 10 4 11).e_use = true ∧
    (layout 60 10 4 11).e_use_share = true ∧
    (layout 60 10 4 11).e_type = true :=
  ⟨(c2_layout_mono_use_columns 10 4 11 45 60 (by decide)).1 (by decide),
   (c2_layout_mono_use_columns 10 4 11 45 60 (by decide)).2.1 (by decide),
   (c2_layout_mono_use_columns 10 4 11 53 60 (by decide)).2.2 (by decide)
     (by decide)⟩

/-- C8: `new` fails exactly on a loader error (propagated), on an empty
candidate list after dropping stats-less mounts (a distinct
descriptively-messaged `Lfs` error), or on a metadata failure for the
initial path (propagated, checked only after the emptiness test); on
success the selection is the first mount whose device id matches the
path's device, or 0 when none matches. -/
theorem c8_new_characterization (lr : Except ProgramError (List Mount))
    (md : Except ProgramError Nat) :
    (∀ e, lr = Except.error e → new lr md = Except.error e) ∧
    (∀ l, lr = Except.ok l →
      l.filter (fun m => m.stats.isSome) = [] →
      new lr md = Except.error (ProgramError.Lfs "no disk in lfs-core list")) ∧
    (∀ l e, lr = Except.ok l →
      l.filter (fun m => m.stats.isSome) ≠ [] →
      md = Except.error e → new lr md = Except.error e) ∧
    (∀ l d, lr = Except.ok l →
      l.filter (fun m => m.stats.isSome) ≠ [] →
      md = Except.ok d →
      new lr md = Except.ok
        { mounts := l.filter (fun m => m.stats.isSome),
          selection_idx :=
            ((l.filter (fun m => m.stats.isSome)).findIdx?
              (fun m => m.info.dev == d)).getD 0,
          scroll := 0, page_height := 0, filtered := none }) := by
  have hfil : ∀ l : List Mount,
      (l.filter fun mount =>
        if show_only_disks then mount.disk.isSome else mount.stats.isSome) =
      l.filter (fun m => m.stats.isSome) := by
    intro l
    simp [show_only_disks]
  refine ⟨?_, ?_, ?_, ?_⟩
  · intro e he
    subst he
    rfl
  · intro l hl hnil
    subst hl
    simp only [new, hfil, hnil]
    rfl
  · intro l e hl hne hmd
    subst hl
    subst hmd
    have hE : (List.filter (fun m => m.stats.isSome) l).isEmpty = false := by
      cases hc : List.isEmpty (List.filter (fun m => m.stats.isSome) l) with
      | false => rfl
      | true => exact absurd (by simpa using hc) hne
    simp only [new, hfil]
    rw [hE, if_neg Bool.false_ne_true]
  · intro l d hl hne hmd
    subst hl
    subst hmd
    have hE : (List.filter (fun m => m.stats.isSome) l).isEmpty = false := by
      cases hc : List.isEmpty (List.filter (fun m => m.stats.isSome) l) with
      | false => rfl
      | true => exact absurd (by simpa using hc) hne
    simp only [new, hfil]
    rw [hE, if_neg Bool.false_ne_true]

theorem inv_of_filtered_none (s : FilesystemState) (h : s.filtered = none) :
    Inv s := by
  intro f hf
  rw [h] at hf
  exact absurd hf (by simp)

theorem new_filter_eq (l : List Mount) :
    (l.filter fun mount =>
      if show_only_disks then mount.disk.isSome else mount.stats.isSome) =
      l.filter fun m => m.stats.isSome := by
  simp [show_only_disks]

theorem new_ok_filtered_none (lr : Except ProgramError (List Mount))
    (md : Except ProgramError Nat) (s : FilesystemState)
    (h : new lr md = Except.ok s) : s.filtered = none := by
  cases lr with
  | error e => exact absurd h (by simp [new])
  | ok l =>
    simp only [new, new_filter_eq] at h
    split at h
    · exact absurd h (by simp)
    · cases md with
      | error e => exact absurd h (by simp)
      | ok d =>
        simp only [Except.ok.injEq] at h
        subst h
        rfl

/-- The successful-`back` equation, used both to settle the `back` claims
and to show the lookup's success in reachable states. -/
theorem on_back_some (s : FilesystemState) (f : FilteredContent)
    (hf : s.filtered = some f) (hE : f.mounts.isEmpty = false)
    (m : Mount) (hm : f.mounts[f.selection_idx]? = some m)
    (i : Nat)
    (hi : (s.mounts.findIdx? fun x => x.info.id == m.info.id) = some i) :
    on_back s =
      some ({ s with filtered := none, selection_idx := i },
        AppStateCmdResult.Keep) := by
  simp only [on_back, hf, hE, Bool.false_eq_true, if_false, hm, hi]

theorem inv_on_pattern (s : FilesystemState) (p : Option Pattern)
    (_hs : Inv s) : Inv (on_pattern s p).1 := by
  cases p with
  | none => exact inv_of_filtered_none _ rfl
  | some q =>
    intro f hf
    simp only [on_pattern, Option.some.injEq] at hf
    subst hf
    constructor
    · intro m hm
      rw [on_pattern_scan_fst] at hm
      simp only [List.nil_append] at hm
      exact (List.mem_filter.mp hm).1
    · intro hne
      rw [on_pattern_scan_fst] at hne ⊢
      simp only [List.nil_append] at hne ⊢
      rw [on_pattern_scan_snd q s.selection_idx s.mounts 0 [] 0 (Nat.zero_le _)]
      simp only [Nat.sub_zero, List.length_nil, Nat.zero_add]
      have hc : ((s.mounts.take (s.selection_idx + 1)).filter (keep q)).length ≤
          (s.mounts.filter (keep q)).length :=
        ((List.take_sublist _ _).filter _).length_le
      have hpos : 0 < (s.mounts.filter (keep q)).length :=
        List.length_pos.mpr hne
      split <;> omega

theorem inv_on_back (s s₂ : FilesystemState) (r : AppStateCmdResult)
    (h : on_back s = some (s₂, r)) : Inv s₂ := by
  cases hf : s.filtered with
  | none =>
    simp only [on_back, hf, Option.some.injEq, Prod.mk.injEq] at h
    obtain ⟨h1, _⟩ := h
    subst h1
    exact inv_of_filtered_none s hf
  | some f =>
    simp only [on_back, hf] at h
    split at h
    · simp only [Option.some.injEq, Prod.mk.injEq] at h
      obtain ⟨h1, _⟩ := h
      subst h1
      exact inv_of_filtered_none _ rfl
    · split at h
      · exact absurd h (by simp)
      · split at h
        · exact absurd h (by simp)
        · simp only [Option.some.injEq, Prod.mk.injEq] at h
          obtain ⟨h1, _⟩ := h
          subst h1
          exact inv_of_filtered_none _ rfl

theorem inv_on_line_down (s : FilesystemState) (hs : Inv s) :
    Inv (on_line_down s).1 := by
  cases hf : s.filtered with
  | none =>
    simp only [on_line_down, hf]
    split
    · exact inv_of_filtered_none _ rfl
    · exact hs
  | some f =>
    obtain ⟨h1, _⟩ := hs f hf
    simp only [on_line_down, hf]
    split
    · rename_i hlt
      intro g hg
      simp only [Option.some.injEq] at hg
      subst hg
      exact ⟨h1, fun _ => hlt⟩
    · intro g hg
      simp only [Option.some.injEq] at hg
      subst hg
      exact hs f hf

theorem inv_on_line_up (s : FilesystemState) (hs : Inv s) :
    Inv (on_line_up s).1 := by
  cases hf : s.filtered with
  | none =>
    simp only [on_line_up, hf]
    split
    · exact inv_of_filtered_none _ rfl
    · exact hs
  | some f =>
    obtain ⟨h1, h2⟩ := hs f hf
    simp only [on_line_up, hf]
    split
    · intro g hg
      simp only [Option.some.injEq] at hg
      subst hg
      refine ⟨h1, fun hne => ?_⟩
      have h3 := h2 hne
      show f.selection_idx - 1 < f.mounts.length
      omega
    · intro g hg
      simp only [Option.some.injEq] at hg
      subst hg
      exact hs f hf

theorem inv_on_click (s : FilesystemState) (x y : Nat) (hs : Inv s) :
    Inv (on_click s x y).1 := by
  simp only [on_click]
  split
  · split
    · exact fun f hf => hs f hf
    · exact hs
  · exact hs

theorem inv_try_scroll (s : FilesystemState) (c : ScrollCommand)
    (hs : Inv s) : Inv (try_scroll s c).1 :=
  fun f hf => hs f hf

theorem inv_display_page_height (s : FilesystemState) (h : Nat)
    (hs : Inv s) : Inv (display_page_height s h) :=
  fun f hf => hs f hf

theorem reachable_inv (s : FilesystemState) (h : Reachable s) : Inv s := by
  induction h with
  | base lr md s h0 =>
    exact inv_of_filtered_none s (new_ok_filtered_none lr md s h0)
  | step s s₂ hr hst ih =>
    cases hst with
    | pattern p => exact inv_on_pattern s p ih
    | back a r hb => exact inv_on_back _ _ _ hb
    | line_down => exact inv_on_line_down s ih
    | line_up => exact inv_on_line_up s ih
    | scroll c => exact inv_try_scroll s c ih
    | click x y => exact inv_on_click s x y ih
    | render hh => exact inv_display_page_height s hh ih

/-- C9: in every reachable state with a non-empty filter overlay, the
identity lookup performed by `back` succeeds — `on_back` does not hit
either modelled panic (`some` result) — because every overlay entry is a
clone of a master entry and the overlay selection is in bounds. -/
theorem c9_back_lookup_succeeds (s : FilesystemState) (f : FilteredContent)
    (hr : Reachable s) (hf : s.filtered = some f) (hne : f.mounts ≠ []) :
    (on_back s).isSome = true := by
  obtain ⟨hsub, hsel⟩ := reachable_inv s hr f hf
  have hlt : f.selection_idx < f.mounts.length := hsel hne
  have hE : f.mounts.isEmpty = false := by simpa using hne
  have hmem : f.mounts[f.selection_idx] ∈ s.mounts :=
    hsub _ (List.getElem_mem hlt)
  have hfind : (s.mounts.findIdx? fun x =>
      x.info.id == (f.mounts[f.selection_idx]).info.id).isSome = true := by
    rw [Option.isSome_iff_ne_none]
    intro hnone
    rw [List.findIdx?_eq_none_iff] at hnone
    have hx := hnone _ hmem
    simp at hx
  obtain ⟨i, hi⟩ := Option.isSome_iff_exists.mp hfind
  rw [on_back_some s f hf hE _ (List.getElem?_eq_getElem hlt) i hi]
  rfl

/-- Witness for `c9_back_lookup_succeeds`: the state reached from `new`
on `[mountA, mountB]` followed by a pattern edit that keeps both mounts. -/
theorem c9_back_lookup_succeeds_witness :
    (on_back (on_pattern exState0 (some patAll)).1).isSome = true :=
  c9_back_lookup_succeeds _
    { pattern := patAll, mounts := [mountA, mountB], selection_idx := 0 }
    (Reachable.step _ _
      (Reachable.base (Except.ok [mountA, mountB]) (Except.ok 10) exState0 rfl)
      (Step.pattern exState0 (some patAll)))
    rfl (List.cons_ne_nil _ _)

/-- Witness for `c8_new_characterization`: all four branches at concrete
inputs. -/
theorem c8_new_characterization_witness :
    new (Except.error (ProgramError.Io 3)) (Except.ok 10) =
      Except.error (ProgramError.Io 3) ∧
    new (Except.ok [mountNoStats]) (Except.ok 10) =
      Except.error (ProgramError.Lfs "no disk in lfs-core list") ∧
    new (Except.ok [mountA, mountB]) (Except.error (ProgramError.Io 4)) =
      Except.error (ProgramError.Io 4) ∧
    new (Except.ok [mountA, mountB]) (Except.ok 10) = Except.ok exState0 :=
  ⟨(c8_new_characterization _ _).1 _ rfl,
   (c8_new_characterization _ _).2.1 _ rfl (by decide),
   (c8_new_characterization _ _).2.2.1 _ _ rfl (by decide) rfl,
   ((c8_new_characterization _ _).2.2.2 _ _ rfl (by decide) rfl).trans rfl⟩

end Broot
